import Mathlib

/-!
Verification of the notification-relay core against its implementation.

The definitions below are a shallow embedding of the Python sources:
* `src/bot/utils/retry.py` (`RetryHandler`)
* `src/bot/services/notification.py` (`NotificationService`, module-level
  `send_notification`)
* `src/bot/services/subscription.py` (`SubscriptionService`)
* `src/bot/services/monitoring.py` (`MonitoringService._send_alert`)

Exceptions are embedded as explicit outcome values, dictionaries as ordered
association lists, Python `set`s as `Finset`s, clock times and float delays as
rationals, and an async operation as a function from its (0-indexed) global
invocation count to the outcome of that invocation.
-/

namespace TelegramBot

/-- Outcome of one invocation of the wrapped async operation, mirroring the
exception taxonomy of `python-telegram-bot` as used by `retry.py` and
`notification.py`: success, `RetryAfter` (carrying the retry-after seconds),
`NetworkError`, any other `TelegramError`, and any other `Exception`. -/
inductive Outcome where
  | ok
  | retryAfter (seconds : ℚ)
  | network
  | telegram
  | other
deriving DecidableEq, Repr

/-- Result of `RetryHandler.execute`: the function returned normally, raised an
exception, or reached `raise last_exception` with `last_exception = None`
(only possible when `max_attempts = 0`, where Python raises a `TypeError`). -/
inductive ExecResult where
  | success
  | raised (e : Outcome)
  | raisedNone
deriving DecidableEq, Repr

/-- Observable trace of one `RetryHandler.execute` call: its result, how many
times it invoked the operation, and the 0-based attempt indices passed to
`_calculate_delay` for each backoff sleep, in order. -/
structure ExecTrace where
  result : ExecResult
  calls : ℕ
  sleeps : List ℕ
deriving DecidableEq, Repr

/-- The `for attempt in range(self.max_attempts)` loop of
`RetryHandler.execute` (src/bot/utils/retry.py lines 41-72), starting at loop
index `attempt` with `remaining` iterations left.  `RetryAfter` is re-raised at
once; `NetworkError` sleeps `_calculate_delay(attempt)` and continues unless
this was the final iteration, in which case the loop ends and the last network
error is re-raised; any other exception is re-raised immediately. -/
def RetryHandler.executeFrom (op : ℕ → Outcome) (attempt : ℕ) : ℕ → ExecTrace
  | 0 => ⟨.raisedNone, 0, []⟩
  | remaining + 1 =>
    match op attempt with
    | .ok => ⟨.success, 1, []⟩
    | .retryAfter s => ⟨.raised (.retryAfter s), 1, []⟩
    | .network =>
      if remaining = 0 then
        ⟨.raised .network, 1, []⟩
      else
        let t := RetryHandler.executeFrom op (attempt + 1) remaining
        ⟨t.result, t.calls + 1, attempt :: t.sleeps⟩
    | .telegram => ⟨.raised .telegram, 1, []⟩
    | .other => ⟨.raised .other, 1, []⟩

/-- `RetryHandler.execute(func)`: run the retry loop from attempt 0 with
`max_attempts` iterations available. -/
def RetryHandler.execute (op : ℕ → Outcome) (maxAttempts : ℕ) : ExecTrace :=
  RetryHandler.executeFrom op 0 maxAttempts

/-- `RetryHandler._calculate_delay` (src/bot/utils/retry.py lines 74-87):
`delay * exponential_base ** attempt` scaled by a jitter value drawn from
`random.uniform(0.1, 0.9)`; the draw is passed in explicitly. -/
def RetryHandler.calculateDelay (delay expBase : ℚ) (attempt : ℕ) (jitter : ℚ) : ℚ :=
  delay * expBase ^ attempt * jitter

/-- Observable trace of `NotificationService._execute_with_retry`: the boolean
it returns, the total number of invocations of the underlying operation, and
the `RetryAfter` sleep duration if one occurred. -/
structure SendTrace where
  success : Bool
  calls : ℕ
  rateLimitSleep : Option ℚ
deriving DecidableEq, Repr

/-- `NotificationService._execute_with_retry` (src/bot/services/notification.py
lines 271-326): run the retry handler; on success return `True`; on
`RetryAfter e` sleep `e.retry_after`, call the operation exactly once more, and
return `True` on success and `False` on any exception; on any other exception
return `False`. -/
def executeWithRetry (op : ℕ → Outcome) (maxAttempts : ℕ) : SendTrace :=
  let t := RetryHandler.execute op maxAttempts
  match t.result with
  | .success => ⟨true, t.calls, none⟩
  | .raised (.retryAfter s) =>
    match op t.calls with
    | .ok => ⟨true, t.calls + 1, some s⟩
    | _ => ⟨false, t.calls + 1, some s⟩
  | .raised _ => ⟨false, t.calls, none⟩
  | .raisedNone => ⟨false, t.calls, none⟩

example :
    executeWithRetry (fun _ => .retryAfter 5) 3 = ⟨false, 2, some 5⟩ := by decide

example :
    executeWithRetry (fun k => if k = 0 then .retryAfter 5 else .ok) 3 =
      ⟨true, 2, some 5⟩ := by decide

example : executeWithRetry (fun _ => .network) 3 = ⟨false, 3, none⟩ := by decide

example : RetryHandler.execute (fun _ => .network) 3 =
    ⟨.raised .network, 3, [0, 1]⟩ := by decide

example : executeWithRetry (fun _ => .telegram) 3 = ⟨false, 1, none⟩ := by decide

/-- The three-character ellipsis marker `"..."` appended on truncation. -/
def ellipsis : List Char := ['.', '.', '.']

/-- The truncation step of `NotificationService.send_notification`
(src/bot/services/notification.py lines 57-62): if the message exceeds
`config.max_message_length` it becomes `message[:max_length - 3] + "..."`,
otherwise it is left unchanged.  Python strings are embedded as `List Char`. -/
def truncateMessage (maxLength : ℕ) (message : List Char) : List Char :=
  if maxLength < message.length then message.take (maxLength - 3) ++ ellipsis
  else message

/-- `NotificationService.send_notification` for text (lines 33-74): truncate,
then hand the resulting payload to the transport through
`_execute_with_retry`.  `op` gives the transport's response to each invocation
given the payload it receives. -/
def NotificationService.sendNotification (maxLength : ℕ) (message : List Char)
    (op : List Char → ℕ → Outcome) (maxAttempts : ℕ) : SendTrace :=
  executeWithRetry (op (truncateMessage maxLength message)) maxAttempts

/-- `asyncio.gather` as used by `send_to_multiple`: `n` tasks indexed by
position; `outcome i` is the boolean task `i` produces; `order` is the order
in which tasks complete.  Each completing task writes its result into the slot
reserved for its own index. -/
def gatherRun (n : ℕ) (outcome : ℕ → Bool) (order : List ℕ) : List (Option Bool) :=
  order.foldl (fun acc i => acc.set i (some (outcome i))) (List.replicate n none)

/-- `NotificationService.send_to_multiple` (lines 228-248): one
`send_notification` task per chat id, gathered concurrently; `res c` is the
boolean that the send to chat `c` returns (`_execute_with_retry` always
returns a boolean, it never raises), and `order` the completion order. -/
def NotificationService.sendToMultiple (chatIds : List ℤ) (res : ℤ → Bool)
    (order : List ℕ) : List (Option Bool) :=
  gatherRun chatIds.length
    (fun i => match chatIds.get? i with | some c => res c | none => false) order

/-- Python `dict` lookup on an insertion-ordered association list. -/
def Dict.find {κ ν : Type} [DecidableEq κ] (l : List (κ × ν)) (k : κ) : Option ν :=
  (l.find? (fun p => decide (p.1 = k))).map (·.2)

/-- Python `dict` assignment `d[k] = v`: replace the value of an existing key
in place, otherwise append the new key at the end. -/
def Dict.insert {κ ν : Type} [DecidableEq κ] : List (κ × ν) → κ → ν → List (κ × ν)
  | [], k, v => [(k, v)]
  | p :: rest, k, v =>
    if p.1 = k then (k, v) :: rest else p :: Dict.insert rest k v

/-- Python `del d[k]`. -/
def Dict.eraseKey {κ ν : Type} [DecidableEq κ] (l : List (κ × ν)) (k : κ) :
    List (κ × ν) :=
  l.filter (fun p => decide (p.1 ≠ k))

/-- `SUBSCRIPTION_TYPES.values()` from src/bot/constants/__init__.py. -/
def SUBSCRIPTION_TYPES : List String := ["system", "errors", "events", "scheduled"]

/-- The in-memory registry `self._subscriptions : Dict[int, Set[str]]`. -/
abbrev Registry := List (ℤ × Finset String)

/-- State of a `SubscriptionService`: the in-memory registry and the content
last successfully persisted to the storage file (`none` if no write has
succeeded yet). -/
structure SubState where
  subs : Registry
  file : Option Registry
deriving DecidableEq

/-- `SubscriptionService._save_subscriptions` (src/bot/services/subscription.py
lines 45-62): try to write the full registry; on any exception log and swallow
it, leaving the file as it was.  `writeOk` says whether the write succeeds. -/
def saveSubscriptions (r : Registry) (writeOk : Bool) (file : Option Registry) :
    Option Registry :=
  if writeOk then some r else file

/-- `SubscriptionService.subscribe` (lines 64-99): reject an invalid type with
`False`; otherwise add the topic to the user's set (creating the entry if
absent), persist best-effort, and return `True`. -/
def SubscriptionService.subscribe (st : SubState) (userId : ℤ) (t : String)
    (writeOk : Bool) : Bool × SubState :=
  if t ∈ SUBSCRIPTION_TYPES then
    let s := (Dict.find st.subs userId).getD ∅
    let r2 := Dict.insert st.subs userId (insert t s)
    (true, ⟨r2, saveSubscriptions r2 writeOk st.file⟩)
  else (false, st)

/-- `SubscriptionService.unsubscribe` (lines 101-142): reject an invalid type;
if the user holds the topic, remove it, delete the user entry when its set
becomes empty, persist best-effort, and return `True`; otherwise `False`. -/
def SubscriptionService.unsubscribe (st : SubState) (userId : ℤ) (t : String)
    (writeOk : Bool) : Bool × SubState :=
  if t ∈ SUBSCRIPTION_TYPES then
    match Dict.find st.subs userId with
    | some s =>
      if t ∈ s then
        let s2 := s.erase t
        let r2 := if s2 = ∅ then Dict.eraseKey st.subs userId
                  else Dict.insert st.subs userId s2
        (true, ⟨r2, saveSubscriptions r2 writeOk st.file⟩)
      else (false, st)
    | none => (false, st)
  else (false, st)

/-- `SubscriptionService.remove_user` (lines 210-226): delete the user's entry
if present, persist best-effort, and return whether the user existed. -/
def SubscriptionService.removeUser (st : SubState) (userId : ℤ) (writeOk : Bool) :
    Bool × SubState :=
  match Dict.find st.subs userId with
  | some _ =>
    let r2 := Dict.eraseKey st.subs userId
    (true, ⟨r2, saveSubscriptions r2 writeOk st.file⟩)
  | none => (false, st)

/-- `SubscriptionService._load_subscriptions` (lines 25-43): the dict
comprehension `{int(user_id): set(subs) for user_id, subs in data.items()}`
applied to the parsed file content. -/
def SubscriptionService.loadSubscriptions (data : List (ℤ × List String)) :
    Registry :=
  data.map (fun p => (p.1, p.2.toFinset))

/-- The registry invariant claimed by the spec: every user key present in the
registry maps to a non-empty topic set. -/
def RegistryInvariant (r : Registry) : Prop :=
  ∀ p ∈ r, p.2 ≠ (∅ : Finset String)

/-- Cooldown key: the pair `(metric, threshold)` that the code renders as the
string `f"{metric}_{threshold}"` (injective on the metric names in use). -/
abbrev AlertKey := String × ℚ

/-- `self._last_alerts`: cooldown key to the loop time of the last firing. -/
abbrev AlertMap := List (AlertKey × ℚ)

/-- `MonitoringService._send_alert` (src/bot/services/monitoring.py lines
90-152): if the key fired within the last `cooldown` seconds, return without
doing anything; otherwise record `now` for the key FIRST, then query the
subscribers and send to each of them, swallowing per-recipient failures.
Returns the new cooldown map, the number of delivery attempts, and the number
of successful deliveries (`deliver u` is the boolean `send_notification`
returns for recipient `u`). -/
def MonitoringService.sendAlert (last : AlertMap) (cooldown : ℚ) (key : AlertKey)
    (now : ℚ) (subscribers : List ℤ) (deliver : ℤ → Bool) : AlertMap × ℕ × ℕ :=
  match Dict.find last key with
  | some t0 =>
    if now - t0 < cooldown then (last, 0, 0)
    else (Dict.insert last key now, subscribers.length,
          (subscribers.filter deliver).length)
  | none =>
    (Dict.insert last key now, subscribers.length,
     (subscribers.filter deliver).length)

/-- `NotificationService.send_to_default_chats` (lines 250-269): empty list
when no default chat ids are configured, otherwise the per-chat results of the
fan-out (`res c` is the boolean outcome of the send to chat `c`). -/
def NotificationService.sendToDefaultChats (defaultChatIds : List String)
    (res : String → Bool) : List Bool :=
  if defaultChatIds = [] then [] else defaultChatIds.map res

/-- Module-level `send_notification` with `chat_id=None` (lines 350-369):
`results = send_to_default_chats(...)`, then `all(results) if results else
False`. -/
def sendNotificationTop (defaultChatIds : List String) (res : String → Bool) :
    Bool :=
  let results := NotificationService.sendToDefaultChats defaultChatIds res
  if results = [] then false else results.all (fun b => b)

example : sendNotificationTop [] (fun _ => true) = false := by decide
example : sendNotificationTop ["a", "b"] (fun c => decide (c = "a")) = false := by
  decide
example : sendNotificationTop ["a", "b"] (fun _ => true) = true := by decide

/-- One-step unfolding of the retry loop body. -/
theorem executeFrom_succ (op : ℕ → Outcome) (a r : ℕ) :
    RetryHandler.executeFrom op a (r + 1) =
      match op a with
      | .ok => ⟨.success, 1, []⟩
      | .retryAfter s => ⟨.raised (.retryAfter s), 1, []⟩
      | .network =>
        if r = 0 then
          ⟨.raised .network, 1, []⟩
        else
          let t := RetryHandler.executeFrom op (a + 1) r
          ⟨t.result, t.calls + 1, a :: t.sleeps⟩
      | .telegram => ⟨.raised .telegram, 1, []⟩
      | .other => ⟨.raised .other, 1, []⟩ := rfl

/-- An operation that raises `NetworkError` on every invocation drives the
retry loop through all its iterations: starting with `r + 1` iterations left
it is called `r + 1` times, the last network error is re-raised, and the
backoff sleeps use attempt indices `a, a+1, ..., a+r-1`. -/
theorem executeFrom_network (op : ℕ → Outcome) (hop : ∀ k, op k = .network) :
    ∀ (r a : ℕ), RetryHandler.executeFrom op a (r + 1) =
      ⟨.raised .network, r + 1, List.range' a r⟩ := by
  intro r
  induction r with
  | zero => intro a; rw [executeFrom_succ]; simp [hop a]
  | succ r ih =>
    intro a
    rw [executeFrom_succ]
    simp [hop a, ih (a + 1), List.range']

/-- The attempt indices recorded for the backoff sleeps of the retry loop form
a contiguous range starting at the initial attempt index. -/
theorem executeFrom_sleeps_range (op : ℕ → Outcome) :
    ∀ (r a : ℕ), ∃ d, (RetryHandler.executeFrom op a r).sleeps = List.range' a d := by
  intro r
  induction r with
  | zero => intro a; exact ⟨0, rfl⟩
  | succ r ih =>
    intro a
    rcases h : op a with _ | s | _ | _ | _
    · exact ⟨0, by rw [executeFrom_succ]; simp [h]⟩
    · exact ⟨0, by rw [executeFrom_succ]; simp [h]⟩
    · by_cases hr : r = 0
      · subst hr
        exact ⟨0, by rw [executeFrom_succ]; simp [h]⟩
      · obtain ⟨d, hd⟩ := ih (a + 1)
        exact ⟨d + 1, by rw [executeFrom_succ]; simp [h, hr, hd, List.range']⟩
    · exact ⟨0, by rw [executeFrom_succ]; simp [h]⟩
    · exact ⟨0, by rw [executeFrom_succ]; simp [h]⟩

/-- Indexing into a contiguous range. -/
theorem range'_get? : ∀ (s d k : ℕ), k < d → (List.range' s d).get? k = some (s + k) := by
  intro s d
  induction d generalizing s with
  | zero => omega
  | succ d ih =>
    intro k hk
    cases k with
    | zero => simp [List.range']
    | succ k =>
      have := ih (s + 1) k (by omega)
      simp only [List.range']
      simpa [Nat.add_assoc, Nat.add_comm, Nat.add_left_comm] using this

/-- C1: whenever the retry handler re-raises a rate-limit signal to the
Delivery Service, the service sleeps the carried duration and attempts the
operation exactly once more — one extra invocation, never a loop: the send
reports `true` if the deferred retry succeeds and `false` if it raises
anything.  An operation that always raises the rate-limit signal stops the
retry handler after a single call regardless of `max_attempts` (it is not
counted against the transient-retry budget), for exactly two invocations in
total. -/
theorem rateLimit_single_deferred_retry (m : ℕ) (n : ℚ) (op : ℕ → Outcome)
    (hr : (RetryHandler.execute op m).result = .raised (.retryAfter n)) :
    (executeWithRetry op m).calls = (RetryHandler.execute op m).calls + 1 ∧
    (executeWithRetry op m).rateLimitSleep = some n ∧
    (op (RetryHandler.execute op m).calls = .ok →
      (executeWithRetry op m).success = true) ∧
    (op (RetryHandler.execute op m).calls ≠ .ok →
      (executeWithRetry op m).success = false) ∧
    (op 0 = .retryAfter n → 1 ≤ m →
      (RetryHandler.execute op m).calls = 1 ∧ (executeWithRetry op m).calls = 2) := by
  refine ⟨?_, ?_, fun hok => ?_, fun hne => ?_, fun h0 hm => ?_⟩
  · rcases h2 : op (RetryHandler.execute op m).calls with _ | s | _ | _ | _ <;>
      simp [executeWithRetry, hr, h2]
  · rcases h2 : op (RetryHandler.execute op m).calls with _ | s | _ | _ | _ <;>
      simp [executeWithRetry, hr, h2]
  · simp [executeWithRetry, hr, hok]
  · rcases h2 : op (RetryHandler.execute op m).calls with _ | s | _ | _ | _
    · exact absurd h2 hne
    all_goals simp [executeWithRetry, hr, h2]
  · obtain ⟨r, rfl⟩ : ∃ r, m = r + 1 := ⟨m - 1, by omega⟩
    have hex : RetryHandler.execute op (r + 1) =
        ⟨.raised (.retryAfter n), 1, []⟩ := by
      rw [RetryHandler.execute, executeFrom_succ]
      simp [h0]
    refine ⟨by rw [hex], ?_⟩
    simp only [executeWithRetry, hex]
    rcases h1 : op 1 with _ | s | _ | _ | _ <;> simp [h1]

/-- Witness for C1 at `max_attempts = 3` and an operation that always raises
the rate-limit signal with `retry_after = 5`. -/
theorem rateLimit_single_deferred_retry_witness :
    (RetryHandler.execute (fun _ => Outcome.retryAfter 5) 3).result =
      ExecResult.raised (Outcome.retryAfter 5) ∧
    (executeWithRetry (fun _ => Outcome.retryAfter 5) 3).rateLimitSleep =
      some 5 ∧
    (executeWithRetry (fun _ => Outcome.retryAfter 5) 3).success = false ∧
    (RetryHandler.execute (fun _ => Outcome.retryAfter 5) 3).calls = 1 ∧
    (executeWithRetry (fun _ => Outcome.retryAfter 5) 3).calls = 2 := by
  have h := rateLimit_single_deferred_retry 3 5 (fun _ => Outcome.retryAfter 5)
    (by decide)
  exact ⟨by decide, h.2.1, h.2.2.2.1 (by decide),
    (h.2.2.2.2 rfl (by norm_num)).1, (h.2.2.2.2 rfl (by norm_num)).2⟩

/-- C2: an operation that raises a transient network error on every invocation
is invoked exactly `max_attempts` times by the Retry Executor, which then
re-raises the last network error, and the Delivery Service surfaces this as
`false`; an operation that raises any other non-rate-limit error is invoked
exactly once, its error propagates without retry, and the Delivery Service
also surfaces `false`. -/
theorem retry_exhaustion_and_fail_fast (m : ℕ) (hm : 1 ≤ m)
    (op opf : ℕ → Outcome) (hop : ∀ k, op k = .network)
    (hf : opf 0 = .telegram ∨ opf 0 = .other) :
    (RetryHandler.execute op m).calls = m ∧
    (RetryHandler.execute op m).result = .raised .network ∧
    executeWithRetry op m = ⟨false, m, none⟩ ∧
    (RetryHandler.execute opf m).calls = 1 ∧
    (RetryHandler.execute opf m).result = .raised (opf 0) ∧
    executeWithRetry opf m = ⟨false, 1, none⟩ := by
  obtain ⟨r, rfl⟩ : ∃ r, m = r + 1 := ⟨m - 1, by omega⟩
  have hex : RetryHandler.execute op (r + 1) =
      ⟨.raised .network, r + 1, List.range' 0 r⟩ :=
    executeFrom_network op hop r 0
  have hexf : RetryHandler.execute opf (r + 1) = ⟨.raised (opf 0), 1, []⟩ := by
    rw [RetryHandler.execute, executeFrom_succ]
    rcases hf with hf | hf <;> simp [hf]
  refine ⟨by rw [hex], by rw [hex], ?_, by rw [hexf], by rw [hexf], ?_⟩
  · simp [executeWithRetry, hex]
  · rcases hf with hf | hf <;> simp [executeWithRetry, hexf, hf]

/-- Witness for C2 at `max_attempts = 3` (the default), with an
always-network-failing operation and an operation raising a non-retryable
Telegram error. -/
theorem retry_exhaustion_and_fail_fast_witness :
    1 ≤ 3 ∧
    (RetryHandler.execute (fun _ => Outcome.network) 3).calls = 3 ∧
    executeWithRetry (fun _ => Outcome.network) 3 = ⟨false, 3, none⟩ ∧
    (RetryHandler.execute (fun _ => Outcome.telegram) 3).calls = 1 ∧
    executeWithRetry (fun _ => Outcome.telegram) 3 = ⟨false, 1, none⟩ :=
  ⟨by norm_num,
   (retry_exhaustion_and_fail_fast 3 (by norm_num) (fun _ => .network)
      (fun _ => .telegram) (fun _ => rfl) (Or.inl rfl)).1,
   (retry_exhaustion_and_fail_fast 3 (by norm_num) (fun _ => .network)
      (fun _ => .telegram) (fun _ => rfl) (Or.inl rfl)).2.2.1,
   (retry_exhaustion_and_fail_fast 3 (by norm_num) (fun _ => .network)
      (fun _ => .telegram) (fun _ => rfl) (Or.inl rfl)).2.2.2.1,
   (retry_exhaustion_and_fail_fast 3 (by norm_num) (fun _ => .network)
      (fun _ => .telegram) (fun _ => rfl) (Or.inl rfl)).2.2.2.2.2⟩

/-- C3: the k-th backoff sleep of the Retry Executor (0-indexed, the sleep
preceding the k-th deferred retry) is computed from attempt index k, so its
duration is `base_delay * exponential_base ^ k * jitter` with the jitter drawn
from [0.1, 0.9); consequently every such sleep lies in
`[0.1 * base_delay * exponential_base ^ k, 0.9 * base_delay * exponential_base ^ k)`. -/
theorem backoff_delay_schedule (op : ℕ → Outcome) (m k : ℕ)
    (baseDelay expBase : ℚ) (j : ℕ → ℚ) (hb : 0 < baseDelay) (he : 0 < expBase)
    (hj1 : 1/10 ≤ j k) (hj2 : j k < 9/10)
    (hk : k < (RetryHandler.execute op m).sleeps.length) :
    (RetryHandler.execute op m).sleeps.get? k = some k ∧
    RetryHandler.calculateDelay baseDelay expBase k (j k) =
      baseDelay * expBase ^ k * j k ∧
    1/10 * (baseDelay * expBase ^ k) ≤
      RetryHandler.calculateDelay baseDelay expBase k (j k) ∧
    RetryHandler.calculateDelay baseDelay expBase k (j k) <
      9/10 * (baseDelay * expBase ^ k) := by
  have hB : 0 < baseDelay * expBase ^ k := mul_pos hb (pow_pos he k)
  refine ⟨?_, rfl, ?_, ?_⟩
  · obtain ⟨d, hd⟩ := executeFrom_sleeps_range op m 0
    rw [RetryHandler.execute] at hk ⊢
    rw [hd] at hk ⊢
    rw [List.length_range'] at hk
    simpa using range'_get? 0 d k hk
  · have := mul_le_mul_of_nonneg_left hj1 hB.le
    calc 1/10 * (baseDelay * expBase ^ k)
        = baseDelay * expBase ^ k * (1/10) := by ring
      _ ≤ baseDelay * expBase ^ k * j k := this
      _ = RetryHandler.calculateDelay baseDelay expBase k (j k) := rfl
  · have := mul_lt_mul_of_pos_left hj2 hB
    calc RetryHandler.calculateDelay baseDelay expBase k (j k)
        = baseDelay * expBase ^ k * j k := rfl
      _ < baseDelay * expBase ^ k * (9/10) := this
      _ = 9/10 * (baseDelay * expBase ^ k) := by ring

/-- Witness for C3 at the defaults `base_delay = 1`, `exponential_base = 2`,
with an always-network-failing operation, `max_attempts = 3`, sleep index 0,
and a jitter draw of 1/2. -/
theorem backoff_delay_schedule_witness :
    (RetryHandler.execute (fun _ => Outcome.network) 3).sleeps.get? 0 = some 0 ∧
    RetryHandler.calculateDelay 1 2 0 (1/2) = 1 * 2 ^ 0 * (1/2) ∧
    1/10 * ((1 : ℚ) * 2 ^ 0) ≤ RetryHandler.calculateDelay 1 2 0 (1/2) ∧
    RetryHandler.calculateDelay 1 2 0 (1/2) < 9/10 * ((1 : ℚ) * 2 ^ 0) :=
  backoff_delay_schedule (fun _ => .network) 3 0 1 2 (fun _ => 1/2)
    (by norm_num) (by norm_num) (by norm_num) (by norm_num) (by decide)

/-- C4: for a configured maximum of at least 3 (default 4096), a message
longer than the maximum is truncated to `max_length - 3` characters with the
three-character ellipsis marker appended, so the transport receives exactly
`max_length` characters ending in the marker; a message of length at most the
maximum is passed through unmodified; and a send is never rejected solely
because of length: with a transport that accepts every payload, the send
succeeds whatever the message length. -/
theorem message_truncation (maxLength : ℕ) (msg : List Char) (hm : 3 ≤ maxLength) :
    (maxLength < msg.length →
      (truncateMessage maxLength msg).length = maxLength ∧
      ellipsis <:+ truncateMessage maxLength msg) ∧
    (msg.length ≤ maxLength → truncateMessage maxLength msg = msg) ∧
    (∀ (op : List Char → ℕ → Outcome) (m : ℕ), 1 ≤ m →
      (∀ p k, op p k = Outcome.ok) →
      (NotificationService.sendNotification maxLength msg op m).success = true) := by
  refine ⟨fun h => ⟨?_, ?_⟩, fun h => ?_, fun op m hm1 hok => ?_⟩
  · rw [truncateMessage, if_pos h, List.length_append, List.length_take]
    simp only [ellipsis, List.length_cons, List.length_nil]
    omega
  · rw [truncateMessage, if_pos h]
    exact List.suffix_append _ _
  · rw [truncateMessage, if_neg (by omega)]
  · obtain ⟨r, rfl⟩ : ∃ r, m = r + 1 := ⟨m - 1, by omega⟩
    rw [NotificationService.sendNotification, executeWithRetry,
      RetryHandler.execute, executeFrom_succ]
    simp [hok]

/-- Witness for C4 at the default maximum 4096 and a message of length
`max_length + 100`, as in the spec's testable property. -/
theorem message_truncation_witness :
    3 ≤ 4096 ∧
    ((truncateMessage 4096 (List.replicate 4196 'a')).length = 4096 ∧
      ellipsis <:+ truncateMessage 4096 (List.replicate 4196 'a')) ∧
    (NotificationService.sendNotification 4096 (List.replicate 4196 'a')
        (fun _ _ => Outcome.ok) 3).success = true :=
  ⟨by norm_num,
   (message_truncation 4096 (List.replicate 4196 'a') (by norm_num)).1
     (by rw [List.length_replicate]; norm_num),
   (message_truncation 4096 (List.replicate 4196 'a') (by norm_num)).2.2
     (fun _ _ => .ok) 3 (by norm_num) (fun _ _ => rfl)⟩

/-- Folding the completion of tasks over the result slots leaves the number of
slots unchanged. -/
theorem gatherFold_length (outcome : ℕ → Bool) :
    ∀ (order : List ℕ) (acc : List (Option Bool)),
      (order.foldl (fun a i => a.set i (some (outcome i))) acc).length =
        acc.length := by
  intro order
  induction order with
  | nil => intro acc; rfl
  | cons i rest ih =>
    intro acc
    rw [List.foldl_cons, ih, List.length_set]

/-- After all completions in `order` have run, a slot holds its own task's
outcome if its task completed, and is untouched otherwise — no completion
writes into another task's slot. -/
theorem gatherFold_get? (outcome : ℕ → Bool) :
    ∀ (order : List ℕ) (acc : List (Option Bool)) (jj : ℕ), jj < acc.length →
      (order.foldl (fun a i => a.set i (some (outcome i))) acc).get? jj =
        if jj ∈ order then some (some (outcome jj)) else acc.get? jj := by
  intro order
  induction order with
  | nil => intro acc jj h; simp
  | cons i rest ih =>
    intro acc jj h
    rw [List.foldl_cons, ih _ jj (by rw [List.length_set]; exact h)]
    by_cases hmem : jj ∈ rest
    · simp [hmem]
    · rw [List.get?_set_of_lt _ _ h]
      by_cases hji : i = jj
      · subst hji
        simp [hmem]
      · simp [hmem, hji, Ne.symm hji]

/-- C5: for any list of recipients and any completion order that is a
permutation of the task indices, `send_to_multiple` yields exactly one result
slot per recipient, and slot `i` holds the boolean outcome of the send to the
`i`-th input recipient — alignment is by input position, independent of the
completion order, and one recipient's `false` outcome occupies only its own
slot. -/
theorem fanout_result_alignment (chatIds : List ℤ) (res : ℤ → Bool)
    (order : List ℕ) (horder : order.Perm (List.range chatIds.length)) :
    (NotificationService.sendToMultiple chatIds res order).length =
      chatIds.length ∧
    ∀ (i : ℕ) (hi : i < chatIds.length),
      (NotificationService.sendToMultiple chatIds res order).get? i =
        some (some (res (chatIds.get ⟨i, hi⟩))) := by
  constructor
  · rw [NotificationService.sendToMultiple, gatherRun, gatherFold_length,
      List.length_replicate]
  · intro i hi
    rw [NotificationService.sendToMultiple, gatherRun,
      gatherFold_get? _ order _ i (by rw [List.length_replicate]; exact hi)]
    have hmem : i ∈ order := horder.mem_iff.mpr (List.mem_range.mpr hi)
    rw [if_pos hmem]
    have h2 : chatIds[i]? = some chatIds[i] := List.getElem?_eq_getElem hi
    simp [h2]

/-- Witness for C5 with three recipients and a completion order different from
the input order. -/
theorem fanout_result_alignment_witness :
    ([2, 0, 1] : List ℕ).Perm (List.range ([10, 20, 30] : List ℤ).length) ∧
    (NotificationService.sendToMultiple [10, 20, 30]
        (fun c => decide (c = 20)) [2, 0, 1]).length = 3 ∧
    (NotificationService.sendToMultiple [10, 20, 30]
        (fun c => decide (c = 20)) [2, 0, 1]).get? 1 = some (some true) :=
  ⟨by decide,
   (fanout_result_alignment [10, 20, 30] (fun c => decide (c = 20)) [2, 0, 1]
      (by decide)).1,
   by
    have h := (fanout_result_alignment [10, 20, 30] (fun c => decide (c = 20))
      [2, 0, 1] (by decide)).2 1 (by norm_num)
    simpa using h⟩

/-- Unfolding dictionary lookup over the first entry. -/
theorem Dict.find_cons {κ ν : Type} [DecidableEq κ] (p : κ × ν)
    (l : List (κ × ν)) (k : κ) :
    Dict.find (p :: l) k = if p.1 = k then some p.2 else Dict.find l k := by
  rw [Dict.find, List.find?_cons]
  by_cases h : p.1 = k <;> simp [h, Dict.find]

/-- Looking up the key just assigned yields the assigned value. -/
theorem Dict.find_insert_self {κ ν : Type} [DecidableEq κ] :
    ∀ (l : List (κ × ν)) (k : κ) (v : ν), Dict.find (Dict.insert l k v) k = some v := by
  intro l k v
  induction l with
  | nil => simp [Dict.insert, Dict.find_cons]
  | cons p rest ih =>
    by_cases h : p.1 = k
    · simp [Dict.insert, h, Dict.find_cons]
    · simp [Dict.insert, h, Dict.find_cons, ih]

/-- Assigning one key leaves lookups of any other key unchanged. -/
theorem Dict.find_insert_ne {κ ν : Type} [DecidableEq κ] (l : List (κ × ν))
    (k : κ) (v : ν) (k2 : κ) (h : k2 ≠ k) :
    Dict.find (Dict.insert l k v) k2 = Dict.find l k2 := by
  induction l with
  | nil => simp [Dict.insert, Dict.find_cons, Dict.find, Ne.symm h]
  | cons p rest ih =>
    by_cases hp : p.1 = k
    · simp [Dict.insert, hp, Dict.find_cons, Ne.symm h]
    · simp [Dict.insert, hp, Dict.find_cons, ih]

/-- Every entry of the dictionary after an assignment is either the assigned
pair or an entry that was already present. -/
theorem Dict.mem_insert {κ ν : Type} [DecidableEq κ] :
    ∀ (l : List (κ × ν)) (k : κ) (v : ν) (p : κ × ν),
      p ∈ Dict.insert l k v → p = (k, v) ∨ p ∈ l := by
  intro l k v
  induction l with
  | nil =>
    intro p hp
    exact Or.inl (List.mem_singleton.mp (by simpa [Dict.insert] using hp))
  | cons q rest ih =>
    intro p hp
    by_cases h : q.1 = k
    · simp only [Dict.insert, if_pos h, List.mem_cons] at hp
      rcases hp with rfl | hp
      · exact Or.inl rfl
      · exact Or.inr (List.mem_cons_of_mem _ hp)
    · simp only [Dict.insert, if_neg h, List.mem_cons] at hp
      rcases hp with rfl | hp
      · exact Or.inr (List.mem_cons_self _ _)
      · rcases ih p hp with h2 | h2
        · exact Or.inl h2
        · exact Or.inr (List.mem_cons_of_mem _ h2)

/-- Deleting a key makes its lookup fail. -/
theorem Dict.find_eraseKey_self {κ ν : Type} [DecidableEq κ] (l : List (κ × ν))
    (k : κ) : Dict.find (Dict.eraseKey l k) k = none := by
  induction l with
  | nil => rfl
  | cons p rest ih =>
    by_cases h : p.1 = k
    · simpa [Dict.eraseKey, h] using ih
    · simpa [Dict.eraseKey, h, Dict.find_cons] using ih

/-- Entries that survive a key deletion were already present. -/
theorem Dict.mem_eraseKey {κ ν : Type} [DecidableEq κ] {l : List (κ × ν)}
    {k : κ} {p : κ × ν} (hp : p ∈ Dict.eraseKey l k) : p ∈ l :=
  List.mem_of_mem_filter hp

/-- Assigning a non-empty topic set preserves the registry invariant. -/
theorem registryInvariant_insert {r : Registry} (h : RegistryInvariant r)
    {u : ℤ} {s : Finset String} (hs : s ≠ ∅) :
    RegistryInvariant (Dict.insert r u s) := by
  intro p hp
  rcases Dict.mem_insert r u s p hp with rfl | hp2
  · exact hs
  · exact h p hp2

/-- Deleting a user preserves the registry invariant. -/
theorem registryInvariant_eraseKey {r : Registry} (h : RegistryInvariant r)
    (u : ℤ) : RegistryInvariant (Dict.eraseKey r u) :=
  fun p hp => h p (Dict.mem_eraseKey hp)

/-- C6 counterexample: `_load_subscriptions` applies
`{int(user_id): set(subs) for user_id, subs in data.items()}` without
filtering empty topic lists, so loading a file that maps user 42 to an empty
list produces a reachable registry state in which the key 42 is present with
an empty topic set — the claimed invariant is not preserved by
load-from-file. -/
theorem registry_invariant_load_cex :
    ¬ RegistryInvariant (SubscriptionService.loadSubscriptions [(42, [])]) :=
  fun h => h (42, ∅) (by simp [SubscriptionService.loadSubscriptions]) rfl

/-- C6 (amended): the non-empty-topic-set invariant holds after `subscribe`,
`unsubscribe` and `remove_user` whenever it held before, and unsubscribing a
user's last remaining (valid) topic removes the user key entirely;
load-from-file preserves the invariant provided every user entry in the file
has a non-empty topic list — which is the case for every file the registry
itself saves — but not for arbitrary files (see the counterexample). -/
theorem registry_invariant_preserved (st : SubState)
    (h : RegistryInvariant st.subs) (u : ℤ) (t : String) (w : Bool)
    (data : List (ℤ × List String))
    (hd : ∀ p ∈ data, p.2 ≠ ([] : List String)) :
    RegistryInvariant (SubscriptionService.subscribe st u t w).2.subs ∧
    RegistryInvariant (SubscriptionService.unsubscribe st u t w).2.subs ∧
    RegistryInvariant (SubscriptionService.removeUser st u w).2.subs ∧
    RegistryInvariant (SubscriptionService.loadSubscriptions data) ∧
    (t ∈ SUBSCRIPTION_TYPES → Dict.find st.subs u = some {t} →
      Dict.find (SubscriptionService.unsubscribe st u t w).2.subs u = none) := by
  refine ⟨?_, ?_, ?_, ?_, ?_⟩
  · by_cases ht : t ∈ SUBSCRIPTION_TYPES
    · simp only [SubscriptionService.subscribe, if_pos ht]
      exact registryInvariant_insert h (Finset.insert_ne_empty _ _)
    · simpa [SubscriptionService.subscribe, ht] using h
  · by_cases ht : t ∈ SUBSCRIPTION_TYPES
    · rcases hfind : Dict.find st.subs u with _ | s
      · simpa [SubscriptionService.unsubscribe, ht, hfind] using h
      · by_cases hts : t ∈ s
        · by_cases he : s.erase t = ∅
          · simp only [SubscriptionService.unsubscribe, if_pos ht, hfind,
              if_pos hts, if_pos he]
            exact registryInvariant_eraseKey h u
          · simp only [SubscriptionService.unsubscribe, if_pos ht, hfind,
              if_pos hts, if_neg he]
            exact registryInvariant_insert h he
        · simpa [SubscriptionService.unsubscribe, ht, hfind, hts] using h
    · simpa [SubscriptionService.unsubscribe, ht] using h
  · rcases hfind : Dict.find st.subs u with _ | s
    · simpa [SubscriptionService.removeUser, hfind] using h
    · simp only [SubscriptionService.removeUser, hfind]
      exact registryInvariant_eraseKey h u
  · intro p hp
    simp only [SubscriptionService.loadSubscriptions, List.mem_map] at hp
    obtain ⟨q, hq, rfl⟩ := hp
    simpa [List.toFinset_eq_empty_iff] using hd q hq
  · intro ht hfind
    have he : ({t} : Finset String).erase t = ∅ := Finset.erase_singleton t
    simp only [SubscriptionService.unsubscribe, if_pos ht, hfind,
      if_pos (Finset.mem_singleton_self t), if_pos he]
    exact Dict.find_eraseKey_self st.subs u

/-- Witness for C6 (amended) on a registry holding user 42 subscribed to
exactly the topic `"system"`, with a load of a one-user file. -/
theorem registry_invariant_preserved_witness :
    RegistryInvariant
      (SubscriptionService.subscribe ⟨[(42, {"system"})], none⟩ 42 "system"
        true).2.subs ∧
    RegistryInvariant
      (SubscriptionService.unsubscribe ⟨[(42, {"system"})], none⟩ 42 "system"
        true).2.subs ∧
    RegistryInvariant
      (SubscriptionService.removeUser ⟨[(42, {"system"})], none⟩ 42 true).2.subs ∧
    RegistryInvariant (SubscriptionService.loadSubscriptions [(7, ["errors"])]) ∧
    Dict.find
      (SubscriptionService.unsubscribe ⟨[(42, {"system"})], none⟩ 42 "system"
        true).2.subs 42 = none := by
  have h := registry_invariant_preserved ⟨[(42, {"system"})], none⟩
    (by
      intro p hp
      rcases List.mem_singleton.mp hp with rfl
      exact Finset.singleton_ne_empty _)
    42 "system" true [(7, ["errors"])]
    (by
      intro p hp
      rcases List.mem_singleton.mp hp with rfl
      simp)
  exact ⟨h.1, h.2.1, h.2.2.1, h.2.2.2.1, h.2.2.2.2 (by decide) rfl⟩

/-- C8: a failed write of the persistence file never surfaces: `subscribe`
with a valid topic, `unsubscribe` of an existing subscription, and
`remove_user` of an existing user all return `true` even when the write
fails, the in-memory mutation is exactly the one a successful write would
have left, and the persisted file is simply left as it was (the exception is
swallowed inside `_save_subscriptions`). -/
theorem persistence_failure_best_effort (st : SubState) (u : ℤ) (t : String)
    (ht : t ∈ SUBSCRIPTION_TYPES) :
    ((SubscriptionService.subscribe st u t false).1 = true ∧
     (SubscriptionService.subscribe st u t false).2.subs =
       (SubscriptionService.subscribe st u t true).2.subs ∧
     (SubscriptionService.subscribe st u t false).2.file = st.file ∧
     Dict.find (SubscriptionService.subscribe st u t false).2.subs u =
       some (insert t ((Dict.find st.subs u).getD ∅))) ∧
    (∀ s : Finset String, Dict.find st.subs u = some s → t ∈ s →
     (SubscriptionService.unsubscribe st u t false).1 = true ∧
     (SubscriptionService.unsubscribe st u t false).2.subs =
       (SubscriptionService.unsubscribe st u t true).2.subs ∧
     (SubscriptionService.unsubscribe st u t false).2.file = st.file) ∧
    ((Dict.find st.subs u).isSome = true →
     (SubscriptionService.removeUser st u false).1 = true ∧
     (SubscriptionService.removeUser st u false).2.subs =
       (SubscriptionService.removeUser st u true).2.subs ∧
     (SubscriptionService.removeUser st u false).2.file = st.file) := by
  refine ⟨⟨?_, ?_, ?_, ?_⟩, fun s hfind hts => ⟨?_, ?_, ?_⟩, fun hsome => ?_⟩
  · simp [SubscriptionService.subscribe, ht]
  · simp [SubscriptionService.subscribe, ht]
  · simp [SubscriptionService.subscribe, ht, saveSubscriptions]
  · simp only [SubscriptionService.subscribe, if_pos ht]
    exact Dict.find_insert_self _ _ _
  · simp [SubscriptionService.unsubscribe, ht, hfind, hts]
  · simp [SubscriptionService.unsubscribe, ht, hfind, hts]
  · simp [SubscriptionService.unsubscribe, ht, hfind, hts, saveSubscriptions]
  · rcases hfind : Dict.find st.subs u with _ | s
    · rw [hfind] at hsome; simp at hsome
    · refine ⟨?_, ?_, ?_⟩ <;>
        simp [SubscriptionService.removeUser, hfind, saveSubscriptions]

/-- Witness for C8 on a registry holding user 42 subscribed to `"system"` and
`"errors"`, with the topic `"system"`. -/
theorem persistence_failure_best_effort_witness :
    ((SubscriptionService.subscribe
        ⟨[(42, {"system", "errors"})], none⟩ 42 "system" false).1 = true ∧
     (SubscriptionService.subscribe
        ⟨[(42, {"system", "errors"})], none⟩ 42 "system" false).2.subs =
       (SubscriptionService.subscribe
          ⟨[(42, {"system", "errors"})], none⟩ 42 "system" true).2.subs ∧
     (SubscriptionService.subscribe
        ⟨[(42, {"system", "errors"})], none⟩ 42 "system" false).2.file = none ∧
     Dict.find (SubscriptionService.subscribe
        ⟨[(42, {"system", "errors"})], none⟩ 42 "system" false).2.subs 42 =
       some (insert "system"
         ((Dict.find ([(42, {"system", "errors"})] : Registry) 42).getD ∅))) ∧
    ((SubscriptionService.unsubscribe
        ⟨[(42, {"system", "errors"})], none⟩ 42 "system" false).1 = true ∧
     (SubscriptionService.unsubscribe
        ⟨[(42, {"system", "errors"})], none⟩ 42 "system" false).2.subs =
       (SubscriptionService.unsubscribe
          ⟨[(42, {"system", "errors"})], none⟩ 42 "system" true).2.subs ∧
     (SubscriptionService.unsubscribe
        ⟨[(42, {"system", "errors"})], none⟩ 42 "system" false).2.file = none) ∧
    ((SubscriptionService.removeUser
        ⟨[(42, {"system", "errors"})], none⟩ 42 false).1 = true ∧
     (SubscriptionService.removeUser
        ⟨[(42, {"system", "errors"})], none⟩ 42 false).2.subs =
       (SubscriptionService.removeUser
          ⟨[(42, {"system", "errors"})], none⟩ 42 true).2.subs ∧
     (SubscriptionService.removeUser
        ⟨[(42, {"system", "errors"})], none⟩ 42 false).2.file = none) := by
  have h := persistence_failure_best_effort
    ⟨[(42, {"system", "errors"})], none⟩ 42 "system" (by decide)
  exact ⟨h.1, h.2.1 {"system", "errors"} rfl (by decide), h.2.2 (by decide)⟩

/-- C7: with the default 300-second cooldown, a first breach of a key not in
the cooldown map fires one alert delivery to the single subscriber; a second
breach of the same key `d` seconds later is suppressed entirely when
`d < 300` and fires again when `300 ≤ d`; and a breach of any other key is
completely unaffected (same delivery count) by the first key's cooldown
entry. -/
theorem alert_cooldown_window (c0 : AlertMap) (k k2 : AlertKey) (t d : ℚ)
    (u : ℤ) (hk : Dict.find c0 k = none) (hne : k2 ≠ k) :
    (MonitoringService.sendAlert c0 300 k t [u] (fun _ => true)).2.1 = 1 ∧
    (d < 300 →
      (MonitoringService.sendAlert
        (MonitoringService.sendAlert c0 300 k t [u] (fun _ => true)).1 300 k
        (t + d) [u] (fun _ => true)).2.1 = 0) ∧
    (300 ≤ d →
      (MonitoringService.sendAlert
        (MonitoringService.sendAlert c0 300 k t [u] (fun _ => true)).1 300 k
        (t + d) [u] (fun _ => true)).2.1 = 1) ∧
    (∀ (t2 : ℚ) (subs : List ℤ) (deliver : ℤ → Bool),
      (MonitoringService.sendAlert
        (MonitoringService.sendAlert c0 300 k t [u] (fun _ => true)).1 300 k2
        t2 subs deliver).2.1 =
      (MonitoringService.sendAlert c0 300 k2 t2 subs deliver).2.1) := by
  have h1 : MonitoringService.sendAlert c0 300 k t [u] (fun _ => true) =
      (Dict.insert c0 k t, 1, 1) := by
    simp [MonitoringService.sendAlert, hk]
  have hdd : t + d - t = d := by ring
  refine ⟨by rw [h1], fun hlt => ?_, fun hge => ?_, fun t2 subs deliver => ?_⟩
  · rw [h1]
    simp only [MonitoringService.sendAlert, Dict.find_insert_self, hdd]
    rw [if_pos hlt]
  · rw [h1]
    simp only [MonitoringService.sendAlert, Dict.find_insert_self, hdd]
    rw [if_neg (not_lt.mpr hge)]
    rfl
  · rw [h1]
    simp only [MonitoringService.sendAlert, Dict.find_insert_ne c0 k t k2 hne]
    rcases Dict.find c0 k2 with _ | t0
    · rfl
    · by_cases hc : t2 - t0 < 300 <;> simp [hc]

/-- Witness for C7 with an empty cooldown map, cooldown keys
`("CPU", 80)` and `("Memory", 80)`, a first breach at time 0, and a second
breach 10 seconds later. -/
theorem alert_cooldown_window_witness :
    Dict.find ([] : AlertMap) ("CPU", 80) = none ∧
    (MonitoringService.sendAlert [] 300 ("CPU", 80) 0 [42]
      (fun _ => true)).2.1 = 1 ∧
    (MonitoringService.sendAlert
      (MonitoringService.sendAlert [] 300 ("CPU", 80) 0 [42]
        (fun _ => true)).1 300 ("CPU", 80) (0 + 10) [42]
      (fun _ => true)).2.1 = 0 ∧
    (MonitoringService.sendAlert
      (MonitoringService.sendAlert [] 300 ("CPU", 80) 0 [42]
        (fun _ => true)).1 300 ("Memory", 80) 7 [42]
      (fun _ => true)).2.1 =
      (MonitoringService.sendAlert [] 300 ("Memory", 80) 7 [42]
        (fun _ => true)).2.1 := by
  have h := alert_cooldown_window [] ("CPU", 80) ("Memory", 80) 0 10 42 rfl
    (by simp)
  exact ⟨rfl, h.1, h.2.1 (by norm_num), h.2.2.2 7 [42] (fun _ => true)⟩

/-- C9: when the cooldown gate is open (no prior firing for the key, or the
prior firing is at least the cooldown window in the past), `_send_alert`
records the breach time into the cooldown map before querying subscribers or
delivering: the resulting map is exactly the old map with the key set to the
breach time, no matter the subscriber list (even empty) and no matter the
per-recipient outcomes (even all failing), and any breach of the same key
within the window afterwards is fully suppressed. -/
theorem cooldown_recorded_before_delivery (c0 : AlertMap) (w : ℚ) (k : AlertKey)
    (t : ℚ) (subs : List ℤ) (deliver : ℤ → Bool)
    (hgate : Dict.find c0 k = none ∨ ∃ t0, Dict.find c0 k = some t0 ∧ w ≤ t - t0) :
    (MonitoringService.sendAlert c0 w k t subs deliver).1 = Dict.insert c0 k t ∧
    Dict.find (MonitoringService.sendAlert c0 w k t subs deliver).1 k = some t ∧
    (∀ (d : ℚ) (subs2 : List ℤ) (deliver2 : ℤ → Bool), 0 ≤ d → d < w →
      MonitoringService.sendAlert
        (MonitoringService.sendAlert c0 w k t subs deliver).1 w k (t + d)
        subs2 deliver2 =
      ((MonitoringService.sendAlert c0 w k t subs deliver).1, 0, 0)) := by
  have h1 : (MonitoringService.sendAlert c0 w k t subs deliver).1 =
      Dict.insert c0 k t := by
    rcases hgate with hg | ⟨t0, hg, hw⟩
    · simp [MonitoringService.sendAlert, hg]
    · simp only [MonitoringService.sendAlert, hg]
      rw [if_neg (not_lt.mpr hw)]
  have hdd : ∀ d : ℚ, t + d - t = d := fun d => by ring
  refine ⟨h1, by rw [h1]; exact Dict.find_insert_self c0 k t,
    fun d subs2 deliver2 hd0 hdw => ?_⟩
  rw [h1]
  simp only [MonitoringService.sendAlert, Dict.find_insert_self, hdd d]
  rw [if_pos hdw]

/-- Witness for C9 with an empty cooldown map, zero subscribers, an
always-failing delivery, and a follow-up breach 10 seconds into the
300-second window. -/
theorem cooldown_recorded_before_delivery_witness :
    (MonitoringService.sendAlert [] 300 ("CPU", 80) 0 []
      (fun _ => false)).1 = Dict.insert [] ("CPU", 80) 0 ∧
    Dict.find (MonitoringService.sendAlert [] 300 ("CPU", 80) 0 []
      (fun _ => false)).1 ("CPU", 80) = some 0 ∧
    MonitoringService.sendAlert
      (MonitoringService.sendAlert [] 300 ("CPU", 80) 0 []
        (fun _ => false)).1 300 ("CPU", 80) (0 + 10) [42]
      (fun _ => true) =
      ((MonitoringService.sendAlert [] 300 ("CPU", 80) 0 []
        (fun _ => false)).1, 0, 0) := by
  have h := cooldown_recorded_before_delivery [] 300 ("CPU", 80) 0 []
    (fun _ => false) (Or.inl rfl)
  exact ⟨h.1, h.2.1, h.2.2 10 [42] (fun _ => true) (by norm_num) (by norm_num)⟩

/-- C10: the module-level `send_notification` without a chat id aggregates the
default-chat fan-out into one boolean: it equals "the default list is
non-empty and every per-chat send succeeded"; in particular it is `false`
(not an empty list, not an error) when no default chats are configured, and
`false` as soon as any one default chat's delivery fails. -/
theorem default_send_aggregate (defaultChatIds : List String)
    (res : String → Bool) :
    sendNotificationTop defaultChatIds res =
      (!defaultChatIds.isEmpty && defaultChatIds.all res) ∧
    (sendNotificationTop defaultChatIds res = true ↔
      defaultChatIds ≠ [] ∧ ∀ c ∈ defaultChatIds, res c = true) := by
  cases defaultChatIds with
  | nil =>
    simp [sendNotificationTop, NotificationService.sendToDefaultChats]
  | cons a l =>
    have hall : ∀ l2 : List String,
        (List.map res l2).all (fun b => b) = l2.all res := by
      intro l2
      induction l2 with
      | nil => rfl
      | cons b l2 ih => simp [ih]
    have h1 : sendNotificationTop (a :: l) res = (a :: l).all res := by
      simp [sendNotificationTop, NotificationService.sendToDefaultChats, hall]
    rw [h1]
    constructor
    · simp [List.isEmpty]
    · simp [List.all_eq_true]

end TelegramBot
